import Mathlib

/-!
# Swingby: fixed-step fourth-order Runge-Kutta integration of a planar two-body orbit

Shallow embedding of `src.c`.

Modelling conventions
* The C `double`s are modelled by an arbitrary linearly ordered field `K`
  (real arithmetic: no rounding, no overflow).  The `math.h` function `sqrt` is a
  parameter `sqrt : K → K`; over the reals it is `Real.sqrt`.  `pow(r,3)` is `r ^ 3`.
* Division is the total division of `K`; the value the model gives to a quotient
  with a zero divisor carries no meaning for the C program (which yields an
  infinity or a NaN there).  Statements about computed values are therefore made
  under positive radii (`radiiPositive`), or are about control flow only.
* The compile-time constants of lines 13-22 are the fields of `Config`.
* Every global array is its own region `Nat → K`, and every store is recorded, in
  program order, in `Mem.log`.  A store past the declared length `tmax` is undefined
  behaviour in C: the compiled program overwrites whatever object lies behind the
  array.  The model keeps such a store at its own index and records it in the log;
  it does not say where the store lands.  The last iteration of the loop of
  `forthOrderRungeKutta` makes such stores; what depends on where they land is
  stated on `inBoundsRun`, the iterations before it, whose stores are all inside
  the arrays.
-/

namespace Swingby

/-- Names of the global arrays declared at lines 26-36 of `src.c`. -/
inductive Arr
  | t | x | y | v_x | v_y | r
  | k1_x | k1_y | k1_vx | k1_vy
  | k2_x | k2_y | k2_vx | k2_vy
  | x_2 | y_2 | v_x_2 | v_y_2
  | r_2
  | x_3 | y_3 | v_x_3 | v_y_3
  | r_3
  | x_4 | y_4 | v_x_4 | v_y_4
  | r_4
  | k3_x | k3_y | k3_vx | k3_vy
  | k4_x | k4_y | k4_vx | k4_vy
  deriving DecidableEq, Repr

/-- Compile-time constants of `src.c` (lines 13-22). `GM` is the macro `(G*M)`. -/
structure Config (K : Type) where
  G : K
  M : K
  x0 : K
  y0 : K
  vx0 : K
  vy0 : K
  dt : K
  tmax : Nat
  t0 : K

/-- Macro `GM`, line 15: `(G*M)`. -/
def Config.GM {K : Type} [LinearOrderedField K] (c : Config K) : K := c.G * c.M

/-- Constants as they stand in `src.c`. -/
def swingby (K : Type) [LinearOrderedField K] : Config K where
  G := 6.67430e-11
  M := 5.972e24
  x0 := 7.00e6
  y0 := 0.0e+3
  vx0 := 0.0e+3
  vy0 := 7.7e+3
  dt := 0.1
  tmax := 200001
  t0 := 0.000

/-- Global memory: the content of every array, and the stores made so far
(array and index, oldest first). -/
structure Mem (K : Type) where
  cell : Arr → Nat → K
  log : List (Arr × Nat)

/-- Assignment `a[i] = v`. The store is kept at index `i` of `a` and logged; for
`i >= tmax` (past the end of the array) the cell stands for whatever the store hits in
the compiled program, and is not a cell of any array. -/
def Mem.store {K : Type} (m : Mem K) (a : Arr) (i : Nat) (v : K) : Mem K where
  cell := fun b j => if b = a ∧ j = i then v else m.cell b j
  log := m.log ++ [(a, i)]

/-- Memory with every cell zero and no store made (static storage before `main`). -/
def Mem.zero (K : Type) [LinearOrderedField K] : Mem K where
  cell := fun _ _ => 0
  log := []

/-- Loop `for(i=0;i<n;i++) body`: the body runs for `i = 0, 1, ..., n-1` in this order. -/
def forLoop {S : Type} (n : Nat) (body : Nat → S → S) (s : S) : S :=
  match n with
  | 0 => s
  | k + 1 => body k (forLoop k body s)

/-- Body of the loop of `initialCondition`, line 62: `t[i]=t0+i*dt;`. -/
def gridBody {K : Type} [LinearOrderedField K] (c : Config K) (i : Nat) (m : Mem K) : Mem K :=
  m.store .t i (c.t0 + (i : K) * c.dt)

/-- Function `initialCondition`, lines 59-68. -/
def initialCondition {K : Type} [LinearOrderedField K] (c : Config K) (m : Mem K) : Mem K :=
  let m := forLoop c.tmax (gridBody c) m
  let m := m.store .x 0 c.x0
  let m := m.store .y 0 c.y0
  let m := m.store .v_x 0 c.vx0
  let m := m.store .v_y 0 c.vy0
  m

/-- Body of the loop of `forthOrderRungeKutta`, lines 76-119, at loop index `i`. -/
def rkBody {K : Type} [LinearOrderedField K] (c : Config K) (sqrt : K → K) (i : Nat)
    (m : Mem K) : Mem K :=
  let m := m.store .r i (sqrt (m.cell .x i * m.cell .x i + m.cell .y i * m.cell .y i))

  let m := m.store .k1_x i (m.cell .v_x i)
  let m := m.store .k1_y i (m.cell .v_y i)
  let m := m.store .k1_vx i (-c.GM * m.cell .x i / (m.cell .r i) ^ 3)
  let m := m.store .k1_vy i (-c.GM * m.cell .y i / (m.cell .r i) ^ 3)

  let m := m.store .x_2 i (m.cell .x i + 0.5 * m.cell .k1_x i * c.dt)
  let m := m.store .y_2 i (m.cell .y i + 0.5 * m.cell .k1_y i * c.dt)
  let m := m.store .r_2 i (sqrt (m.cell .x_2 i * m.cell .x_2 i + m.cell .y_2 i * m.cell .y_2 i))
  let m := m.store .v_x_2 i (m.cell .v_x i + 0.5 * m.cell .k1_vx i * c.dt)
  let m := m.store .v_y_2 i (m.cell .v_y i + 0.5 * m.cell .k1_vy i * c.dt)

  let m := m.store .k2_x i (m.cell .v_x_2 i)
  let m := m.store .k2_y i (m.cell .v_y_2 i)
  let m := m.store .k2_vx i (-c.GM * m.cell .x_2 i / (m.cell .r_2 i) ^ 3)
  let m := m.store .k2_vy i (-c.GM * m.cell .y_2 i / (m.cell .r_2 i) ^ 3)

  let m := m.store .x_3 i (m.cell .x i + 0.5 * m.cell .k2_x i * c.dt)
  let m := m.store .y_3 i (m.cell .y i + 0.5 * m.cell .k2_y i * c.dt)
  let m := m.store .r_3 i (sqrt (m.cell .x_3 i * m.cell .x_3 i + m.cell .y_3 i * m.cell .y_3 i))
  let m := m.store .v_x_3 i (m.cell .v_x i + 0.5 * m.cell .k2_vx i * c.dt)
  let m := m.store .v_y_3 i (m.cell .v_y i + 0.5 * m.cell .k2_vy i * c.dt)

  let m := m.store .k3_x i (m.cell .v_x_3 i)
  let m := m.store .k3_y i (m.cell .v_y_3 i)
  let m := m.store .k3_vx i (-c.GM * m.cell .x_3 i / (m.cell .r_3 i) ^ 3)
  let m := m.store .k3_vy i (-c.GM * m.cell .y_3 i / (m.cell .r_3 i) ^ 3)

  let m := m.store .x_4 i (m.cell .x i + m.cell .k3_x i * c.dt)
  let m := m.store .y_4 i (m.cell .y i + m.cell .k3_y i * c.dt)
  let m := m.store .r_4 i (sqrt (m.cell .x_4 i * m.cell .x_4 i + m.cell .y_4 i * m.cell .y_4 i))
  let m := m.store .v_x_4 i (m.cell .v_x i + m.cell .k3_vx i * c.dt)
  let m := m.store .v_y_4 i (m.cell .v_y i + m.cell .k3_vy i * c.dt)

  let m := m.store .k4_x i (m.cell .v_x_4 i)
  let m := m.store .k4_y i (m.cell .v_y_4 i)
  let m := m.store .k4_vx i (-c.GM * m.cell .x_4 i / (m.cell .r_4 i) ^ 3)
  let m := m.store .k4_vy i (-c.GM * m.cell .y_4 i / (m.cell .r_4 i) ^ 3)

  let m := m.store .v_x (i + 1) (m.cell .v_x i + 1.0 / 6.0 *
    (m.cell .k1_vx i + 2.0 * m.cell .k2_vx i + 2.0 * m.cell .k3_vx i + m.cell .k4_vx i) * c.dt)
  let m := m.store .v_y (i + 1) (m.cell .v_y i + 1.0 / 6.0 *
    (m.cell .k1_vy i + 2.0 * m.cell .k2_vy i + 2.0 * m.cell .k3_vy i + m.cell .k4_vy i) * c.dt)
  let m := m.store .x (i + 1) (m.cell .x i + 1.0 / 6.0 *
    (m.cell .k1_x i + 2.0 * m.cell .k2_x i + 2.0 * m.cell .k3_x i + m.cell .k4_x i) * c.dt)
  let m := m.store .y (i + 1) (m.cell .y i + 1.0 / 6.0 *
    (m.cell .k1_y i + 2.0 * m.cell .k2_y i + 2.0 * m.cell .k3_y i + m.cell .k4_y i) * c.dt)
  m

/-- Function `forthOrderRungeKutta`, lines 72-122: `for(i=0;i<tmax;i++)` over the body. -/
def forthOrderRungeKutta {K : Type} [LinearOrderedField K] (c : Config K) (sqrt : K → K)
    (m : Mem K) : Mem K :=
  forLoop c.tmax (rkBody c sqrt) m

/-- One line of the file `swingby.csv`: the header text, or the six values passed to
`fprintf` for one sample (the `%d`/`%f` rendering itself is not modelled). -/
inductive CsvLine (K : Type)
  | header (text : String)
  | sample (i : Nat) (t x y vx vy : K)

/-- Function `output_csv`, lines 127-139. `fopenOk` says whether `fopen` returned a
non-null stream. `Except.error n` is `exit(n)` (nothing was written);
`Except.ok ls` is a normal return with `ls` the lines written to the file. -/
def output_csv {K : Type} [LinearOrderedField K] (c : Config K) (fopenOk : Bool)
    (m : Mem K) : Except Nat (List (CsvLine K)) :=
  if !fopenOk then
    Except.error 1
  else
    let out := [CsvLine.header "i,t,x,v"]
    let out := forLoop c.tmax (fun i out => out ++
      [CsvLine.sample i (m.cell .t i) (m.cell .x i) (m.cell .y i) (m.cell .v_x i)
        (m.cell .v_y i)]) out
    Except.ok out

/-- Result of a run of the program: exit status, the lines of `swingby.csv`, and the
memory at the end. -/
structure Run (K : Type) where
  status : Nat
  file : List (CsvLine K)
  mem : Mem K

/-- Function `main`, lines 47-52, started on memory `m`. -/
def main {K : Type} [LinearOrderedField K] (c : Config K) (sqrt : K → K) (fopenOk : Bool)
    (m : Mem K) : Run K :=
  let m := initialCondition c m
  let m := forthOrderRungeKutta c sqrt m
  match output_csv c fopenOk m with
  | Except.error code => { status := code, file := [], mem := m }
  | Except.ok ls => { status := 0, file := ls, mem := m }

/-- Iterations `i = 0, ..., tmax - 2` of the loop of `forthOrderRungeKutta`: the part of
the loop before its last iteration. Every store of these iterations is at an index
`<= tmax - 1`, inside the arrays. -/
def inBoundsRun {K : Type} [LinearOrderedField K] (c : Config K) (sqrt : K → K)
    (m : Mem K) : Mem K :=
  forLoop (c.tmax - 1) (rkBody c sqrt) m

/-- The four radii that iteration `i` of the loop body divides by, evaluated on memory
`m`, are all positive: no quotient of the iteration has a zero divisor. -/
def radiiPositive {K : Type} [LinearOrderedField K] (c : Config K) (sqrt : K → K) (i : Nat)
    (m : Mem K) : Prop :=
  0 < (rkBody c sqrt i m).cell .r i ∧ 0 < (rkBody c sqrt i m).cell .r_2 i ∧
  0 < (rkBody c sqrt i m).cell .r_3 i ∧ 0 < (rkBody c sqrt i m).cell .r_4 i

/-- Memory after `initialCondition(); forthOrderRungeKutta();`, the trajectory that
`main` hands to `output_csv`. -/
def trajectory {K : Type} [LinearOrderedField K] (c : Config K) (sqrt : K → K)
    (m : Mem K) : Mem K :=
  forthOrderRungeKutta c sqrt (initialCondition c m)

/-- Position and velocity of one sample. -/
structure State (K : Type) where
  x : K
  y : K
  vx : K
  vy : K

/-- Sample `i` of the trajectory arrays `x, y, v_x, v_y`. -/
def stateAt {K : Type} (m : Mem K) (i : Nat) : State K :=
  ⟨m.cell .x i, m.cell .y i, m.cell .v_x i, m.cell .v_y i⟩

/-- Configured initial condition `(x0, y0, vx0, vy0)`. -/
def Config.init {K : Type} (c : Config K) : State K := ⟨c.x0, c.y0, c.vx0, c.vy0⟩

/-- Memory holding `s` at index 0 of `x, y, v_x, v_y`. -/
def Mem.ofState {K : Type} [LinearOrderedField K] (s : State K) : Mem K :=
  ((((Mem.zero K).store .x 0 s.x).store .y 0 s.y).store .v_x 0 s.vx).store .v_y 0 s.vy

/-- Single-step function of the loop body: the sample the body stores at index 1 when it
runs at `i = 0` on a memory holding `s` at index 0. -/
def step {K : Type} [LinearOrderedField K] (c : Config K) (sqrt : K → K) (s : State K) :
    State K :=
  stateAt (rkBody c sqrt 0 (Mem.ofState s)) 1

/-- Sum of two states, component by component. -/
def State.add {K : Type} [LinearOrderedField K] (a b : State K) : State K :=
  ⟨a.x + b.x, a.y + b.y, a.vx + b.vx, a.vy + b.vy⟩

/-- Multiple of a state, component by component. -/
def State.smul {K : Type} [LinearOrderedField K] (k : K) (a : State K) : State K :=
  ⟨k * a.x, k * a.y, k * a.vx, k * a.vy⟩

/-- Acceleration law as the specification words it:
`r = sqrt(x² + y²)`, `ax = -mu * x / r³`, `ay = -mu * y / r³`. -/
def acceleration {K : Type} [LinearOrderedField K] (sqrt : K → K) (mu x y : K) : K × K :=
  let r := sqrt (x ^ 2 + y ^ 2)
  (-mu * x / r ^ 3, -mu * y / r ^ 3)

/-- Right-hand side as the specification words it:
`f(x,y,vx,vy) = (vx, vy, ax(x,y), ay(x,y))`. -/
def deriv {K : Type} [LinearOrderedField K] (sqrt : K → K) (mu : K) (s : State K) : State K :=
  ⟨s.vx, s.vy, (acceleration sqrt mu s.x s.y).1, (acceleration sqrt mu s.x s.y).2⟩

/-- Classical four-stage Runge-Kutta step as the specification words it:
`k1 = f(s)`, `k2 = f(s + 0.5*dt*k1)`, `k3 = f(s + 0.5*dt*k2)`, `k4 = f(s + dt*k3)`,
`next = s + (dt/6) * (k1 + 2*k2 + 2*k3 + k4)`. -/
def rk4Step {K : Type} [LinearOrderedField K] (f : State K → State K) (dt : K)
    (s : State K) : State K :=
  let k1 := f s
  let k2 := f (s.add (State.smul (0.5 * dt) k1))
  let k3 := f (s.add (State.smul (0.5 * dt) k2))
  let k4 := f (s.add (State.smul dt k3))
  s.add (State.smul (dt / 6)
    ((k1.add (State.smul 2 k2)).add ((State.smul 2 k3).add k4)))

/-- Iterate `f` `n` times from `s`. -/
def iter {S : Type} (f : S → S) (n : Nat) (s : S) : S :=
  match n with
  | 0 => s
  | k + 1 => f (iter f k s)

/-- Stores made by one run of the loop body at index `i`, in program order. -/
def bodyStores (i : Nat) : List (Arr × Nat) :=
  [(.r, i), (.k1_x, i), (.k1_y, i), (.k1_vx, i), (.k1_vy, i),
   (.x_2, i), (.y_2, i), (.r_2, i), (.v_x_2, i), (.v_y_2, i),
   (.k2_x, i), (.k2_y, i), (.k2_vx, i), (.k2_vy, i),
   (.x_3, i), (.y_3, i), (.r_3, i), (.v_x_3, i), (.v_y_3, i),
   (.k3_x, i), (.k3_y, i), (.k3_vx, i), (.k3_vy, i),
   (.x_4, i), (.y_4, i), (.r_4, i), (.v_x_4, i), (.v_y_4, i),
   (.k4_x, i), (.k4_y, i), (.k4_vx, i), (.k4_vy, i),
   (.v_x, i + 1), (.v_y, i + 1), (.x, i + 1), (.y, i + 1)]

/-- Constants of `src.c` with the body started at the attracting centre (`x0 = 0`). -/
def origin (K : Type) [LinearOrderedField K] : Config K :=
  { swingby K with x0 := 0 }

/-- Small configuration: `GM = 125`, start at `(3, 4)` at rest, unit step, three samples. -/
def demo (K : Type) [LinearOrderedField K] : Config K where
  G := 125
  M := 1
  x0 := 3
  y0 := 4
  vx0 := 0
  vy0 := 0
  dt := 1
  tmax := 3
  t0 := 0

/-- Small force-free configuration: `GM = 0`, start at `(3, 4)` with velocity `(1, 0)`. -/
def coast (K : Type) [LinearOrderedField K] : Config K where
  G := 0
  M := 1
  x0 := 3
  y0 := 4
  vx0 := 1
  vy0 := 0
  dt := 1
  tmax := 2
  t0 := 0

/-- Small configuration whose first step passes through the centre: `GM = 1`, start at
`(1, 0)` with velocity `(-2, 0)`, unit step, so the stage-2 position is `(0, 0)`. -/
def axial (K : Type) [LinearOrderedField K] : Config K where
  G := 1
  M := 1
  x0 := 1
  y0 := 0
  vx0 := -2
  vy0 := 0
  dt := 1
  tmax := 2
  t0 := 0

/-- Sample line `k` that `output_csv` prints from memory `m`. -/
def sampleLine {K : Type} (m : Mem K) (k : Nat) : CsvLine K :=
  CsvLine.sample k (m.cell .t k) (m.cell .x k) (m.cell .y k) (m.cell .v_x k) (m.cell .v_y k)

/-- Stores made by the first `n` iterations of the loop of `forthOrderRungeKutta`. -/
def loopStores (n : Nat) : List (Arr × Nat) :=
  match n with
  | 0 => []
  | k + 1 => loopStores k ++ bodyStores k

/-- Mirror image of a state in the x-axis: `(x, y, vx, vy)` becomes `(x, -y, vx, -vy)`. -/
def State.reflect {K : Type} [LinearOrderedField K] (s : State K) : State K :=
  ⟨s.x, -s.y, s.vx, -s.vy⟩

/-- The four trajectory arrays that the loop body stores at index `i + 1`. -/
def Arr.isTrajectory (a : Arr) : Prop := a = .x ∨ a = .y ∨ a = .v_x ∨ a = .v_y

/-- A store is within the declared length of its array (every array has `tmax` elements). -/
def inBounds {K : Type} (c : Config K) (e : Arr × Nat) : Prop := e.2 < c.tmax

/-! ## Memory and loop lemmas -/

@[simp] theorem cell_store {K : Type} (m : Mem K) (a b : Arr) (i j : Nat) (v : K) :
    (m.store a i v).cell b j = if b = a ∧ j = i then v else m.cell b j := rfl

@[simp] theorem log_store {K : Type} (m : Mem K) (a : Arr) (i : Nat) (v : K) :
    (m.store a i v).log = m.log ++ [(a, i)] := rfl

theorem cell_gridBody {K : Type} [LinearOrderedField K] (c : Config K) (i : Nat) (m : Mem K)
    (b : Arr) (j : Nat) :
    (gridBody c i m).cell b j
      = if b = .t ∧ j = i then c.t0 + (i : K) * c.dt else m.cell b j := rfl

theorem forLoop_succ {S : Type} (n : Nat) (body : Nat → S → S) (s : S) :
    forLoop (n + 1) body s = body n (forLoop n body s) := rfl

section
variable {K : Type} [LinearOrderedField K]

theorem rkBody_log (c : Config K) (sqrt : K → K) (i : Nat) (m : Mem K) :
    (rkBody c sqrt i m).log = m.log ++ bodyStores i := by
  simp [rkBody, bodyStores]

theorem rkBody_frame_t (c : Config K) (sqrt : K → K) (i j : Nat) (m : Mem K) :
    (rkBody c sqrt i m).cell .t j = m.cell .t j := by
  simp [rkBody]

theorem rkBody_stateAt_succ (c : Config K) (sqrt : K → K) (i : Nat) (m : Mem K) :
    stateAt (rkBody c sqrt i m) (i + 1)
      = rk4Step (deriv sqrt c.GM) c.dt (stateAt m i) := by
  simp only [stateAt, rkBody, rk4Step, deriv, acceleration, State.add, State.smul, cell_store]
  simp
  have h1 : ∀ a : K, 0.5 * c.dt * a = 0.5 * a * c.dt := fun a => by ring
  have h2 : ∀ p q : K, c.dt * (p + q) = (p + q) * c.dt := fun p q => by ring
  have h3 : ∀ p q : K, c.dt * (p / q) = p / q * c.dt := fun p q => by ring
  simp only [sq, h1, h2, h3]
  refine ⟨?_, ?_, ?_, ?_⟩ <;> ring

theorem rkBody_stateAt_frame (c : Config K) (sqrt : K → K) (i j : Nat) (m : Mem K)
    (h : j ≠ i + 1) : stateAt (rkBody c sqrt i m) j = stateAt m j := by
  simp [stateAt, rkBody, h]

theorem stateAt_ofState (s : State K) : stateAt (Mem.ofState s) 0 = s := by
  simp [stateAt, Mem.ofState]

theorem step_eq_rk4Step (c : Config K) (sqrt : K → K) (s : State K) :
    step c sqrt s = rk4Step (deriv sqrt c.GM) c.dt s := by
  unfold step
  rw [rkBody_stateAt_succ, stateAt_ofState]

theorem rkBody_stateAt_step (c : Config K) (sqrt : K → K) (i : Nat) (m : Mem K) :
    stateAt (rkBody c sqrt i m) (i + 1) = step c sqrt (stateAt m i) := by
  rw [rkBody_stateAt_succ, step_eq_rk4Step]

/-- After `n` iterations every sample `k ≤ n` is the `k`-fold step of sample 0. -/
theorem loop_stateAt (c : Config K) (sqrt : K → K) (m : Mem K) (n : Nat) :
    ∀ k, k ≤ n → stateAt (forLoop n (rkBody c sqrt) m) k
      = iter (step c sqrt) k (stateAt m 0) := by
  induction n with
  | zero =>
    intro k hk
    have hk0 : k = 0 := Nat.le_zero.mp hk
    subst hk0
    rfl
  | succ n ih =>
    intro k hk
    rw [forLoop_succ]
    rcases Nat.lt_or_ge k (n + 1) with hlt | hge
    · rw [rkBody_stateAt_frame c sqrt n k _ (Nat.ne_of_lt hlt)]
      exact ih k (Nat.le_of_lt_succ hlt)
    · have hk1 : k = n + 1 := Nat.le_antisymm hk hge
      subst hk1
      rw [rkBody_stateAt_step, ih n (Nat.le_refl n)]
      rfl

theorem loop_cell_t (c : Config K) (sqrt : K → K) (m : Mem K) (n j : Nat) :
    (forLoop n (rkBody c sqrt) m).cell .t j = m.cell .t j := by
  induction n with
  | zero => rfl
  | succ n ih => rw [forLoop_succ, rkBody_frame_t, ih]

theorem loop_log (c : Config K) (sqrt : K → K) (m : Mem K) (n : Nat) :
    (forLoop n (rkBody c sqrt) m).log = m.log ++ loopStores n := by
  induction n with
  | zero => simp [forLoop, loopStores]
  | succ n ih => rw [forLoop_succ, rkBody_log, ih, loopStores, List.append_assoc]

/-- Time-grid loop of `initialCondition`: cells of `t` below the bound. -/
theorem gridLoop_cell_t (c : Config K) (m : Mem K) (n i : Nat) (h : i < n) :
    (forLoop n (gridBody c) m).cell .t i = c.t0 + (i : K) * c.dt := by
  induction n with
  | zero => exact absurd h (Nat.not_lt_zero i)
  | succ n ih =>
    rw [forLoop_succ, cell_gridBody]
    rcases Nat.lt_or_ge i n with hlt | hge
    · have hne : i ≠ n := Nat.ne_of_lt hlt
      simp [hne, ih hlt]
    · have hin : i = n := Nat.le_antisymm (Nat.le_of_lt_succ h) hge
      simp [hin]

/-- Time-grid loop of `initialCondition`: the other arrays are untouched. -/
theorem gridLoop_cell_other (c : Config K) (m : Mem K) (n j : Nat) (a : Arr) (h : a ≠ .t) :
    (forLoop n (gridBody c) m).cell a j = m.cell a j := by
  induction n with
  | zero => rfl
  | succ n ih => rw [forLoop_succ, cell_gridBody]; simp [h, ih]

theorem initialCondition_cell_t (c : Config K) (m : Mem K) (i : Nat) (h : i < c.tmax) :
    (initialCondition c m).cell .t i = c.t0 + (i : K) * c.dt := by
  simp [initialCondition, gridLoop_cell_t c m c.tmax i h]

theorem initialCondition_stateAt (c : Config K) (m : Mem K) :
    stateAt (initialCondition c m) 0 = c.init := by
  simp [initialCondition, stateAt, Config.init]

theorem trajectory_stateAt (c : Config K) (sqrt : K → K) (m : Mem K) (k : Nat)
    (h : k ≤ c.tmax) :
    stateAt (trajectory c sqrt m) k = iter (step c sqrt) k c.init := by
  unfold trajectory forthOrderRungeKutta
  rw [loop_stateAt c sqrt _ c.tmax k h, initialCondition_stateAt]

theorem trajectory_cell_t (c : Config K) (sqrt : K → K) (m : Mem K) (i : Nat)
    (h : i < c.tmax) :
    (trajectory c sqrt m).cell .t i = c.t0 + (i : K) * c.dt := by
  unfold trajectory forthOrderRungeKutta
  rw [loop_cell_t, initialCondition_cell_t c m i h]

theorem trajectory_log (c : Config K) (sqrt : K → K) (m : Mem K) :
    (trajectory c sqrt m).log = (initialCondition c m).log ++ loopStores c.tmax := by
  unfold trajectory forthOrderRungeKutta
  rw [loop_log]

theorem mem_loopStores (n k : Nat) (e : Arr × Nat) (hk : k < n) (he : e ∈ bodyStores k) :
    e ∈ loopStores n := by
  induction n with
  | zero => exact absurd hk (Nat.not_lt_zero k)
  | succ n ih =>
    rw [loopStores, List.mem_append]
    rcases Nat.lt_or_ge k n with hlt | hge
    · exact Or.inl (ih hlt)
    · have hkn : k = n := Nat.le_antisymm (Nat.le_of_lt_succ hk) hge
      subst hkn
      exact Or.inr he

theorem rkBody_cell_r_same (c : Config K) (sqrt : K → K) (i : Nat) (m : Mem K) :
    (rkBody c sqrt i m).cell .r i
      = sqrt (m.cell .x i * m.cell .x i + m.cell .y i * m.cell .y i) := by
  simp [rkBody]

theorem rkBody_cell_r_frame (c : Config K) (sqrt : K → K) (i j : Nat) (m : Mem K)
    (h : j ≠ i) : (rkBody c sqrt i m).cell .r j = m.cell .r j := by
  simp [rkBody, h]

/-- The radius stored by iteration 0 survives the rest of the loop. -/
theorem loop_cell_r_zero (c : Config K) (sqrt : K → K) (m : Mem K) (n : Nat) :
    (forLoop (n + 1) (rkBody c sqrt) m).cell .r 0
      = sqrt (m.cell .x 0 * m.cell .x 0 + m.cell .y 0 * m.cell .y 0) := by
  induction n with
  | zero => rw [forLoop_succ, rkBody_cell_r_same]; rfl
  | succ n ih => rw [forLoop_succ, rkBody_cell_r_frame c sqrt (n + 1) 0 _ (by omega), ih]

theorem appendLoop {A : Type} (f : Nat → A) (n : Nat) (out : List A) :
    forLoop n (fun i out => out ++ [f i]) out = out ++ (List.range n).map f := by
  induction n with
  | zero => simp [forLoop]
  | succ n ih => rw [forLoop_succ, ih, List.range_succ, List.map_append, List.append_assoc]; rfl

theorem output_csv_ok (c : Config K) (m : Mem K) :
    output_csv c true m
      = Except.ok (CsvLine.header "i,t,x,v" :: (List.range c.tmax).map (sampleLine m)) := by
  simp only [output_csv, Bool.not_true, Bool.false_eq_true, if_false]
  rw [show (fun i out => out ++ [CsvLine.sample i (m.cell .t i) (m.cell .x i) (m.cell .y i)
      (m.cell .v_x i) (m.cell .v_y i)]) = (fun i out => out ++ [sampleLine m i]) from rfl,
    appendLoop]
  rfl

theorem main_ok (c : Config K) (sqrt : K → K) (m : Mem K) :
    main c sqrt true m =
      { status := 0
        file := CsvLine.header "i,t,x,v" ::
          (List.range c.tmax).map (sampleLine (trajectory c sqrt m))
        mem := trajectory c sqrt m } := by
  simp only [main, trajectory, output_csv_ok]

theorem main_ok_status (c : Config K) (sqrt : K → K) (m : Mem K) :
    (main c sqrt true m).status = 0 := by
  rw [main_ok]

theorem main_ok_length (c : Config K) (sqrt : K → K) (m : Mem K) :
    (main c sqrt true m).file.length = c.tmax + 1 := by
  rw [main_ok]
  simp

/-- First radius evaluated by a run with at least one iteration. -/
theorem trajectory_cell_r_zero (c : Config K) (sqrt : K → K) (m : Mem K) (n : Nat)
    (h : c.tmax = n + 1) :
    (trajectory c sqrt m).cell .r 0 = sqrt (c.x0 * c.x0 + c.y0 * c.y0) := by
  unfold trajectory forthOrderRungeKutta
  rw [h, loop_cell_r_zero]
  have h0 := initialCondition_stateAt c m
  simp only [stateAt, Config.init, State.mk.injEq] at h0
  rw [h0.1, h0.2.1]

/-- With `GM = 0` one step moves the body along its velocity. -/
theorem step_zero_force (c : Config K) (sqrt : K → K) (h : c.GM = 0) (s : State K) :
    step c sqrt s = ⟨s.x + c.dt * s.vx, s.y + c.dt * s.vy, s.vx, s.vy⟩ := by
  rw [step_eq_rk4Step, h]
  simp only [rk4Step, deriv, acceleration, State.add, State.smul, neg_zero, zero_mul,
    zero_div, mul_zero, add_zero]
  congr 1 <;> ring

theorem iter_zero_force (c : Config K) (sqrt : K → K) (h : c.GM = 0) (n : Nat) :
    iter (step c sqrt) n c.init
      = ⟨c.x0 + (n : K) * c.dt * c.vx0, c.y0 + (n : K) * c.dt * c.vy0, c.vx0, c.vy0⟩ := by
  induction n with
  | zero => simp [iter, Config.init]
  | succ n ih =>
    rw [iter, ih, step_zero_force c sqrt h]
    simp only [Nat.cast_succ]
    congr 1 <;> ring

theorem sqrt_25 : Real.sqrt 25 = 5 := by
  rw [show (25 : ℝ) = 5 ^ 2 by norm_num]
  exact Real.sqrt_sq (by norm_num)

/-! ## Lemmas on the exit path, the store log, and the symmetry of the step -/

theorem output_csv_fail (c : Config K) (m : Mem K) :
    output_csv c false m = Except.error 1 := by
  simp [output_csv]

theorem main_fail (c : Config K) (sqrt : K → K) (m : Mem K) :
    main c sqrt false m = { status := 1, file := [], mem := trajectory c sqrt m } := by
  simp only [main, trajectory, output_csv_fail]

theorem count_bodyStores_trajectory (a : Arr) (ha : a.isTrajectory) (i k : Nat) :
    (bodyStores i).count (a, k) = if k = i + 1 then 1 else 0 := by
  rcases ha with h | h | h | h <;> subst h <;> by_cases hk : k = i + 1 <;>
    simp [bodyStores, List.count_cons, hk]

theorem count_bodyStores_t (i j : Nat) : (bodyStores i).count (Arr.t, j) = 0 := by
  simp [bodyStores, List.count_cons]

theorem count_loopStores_t (n j : Nat) : (loopStores n).count (Arr.t, j) = 0 := by
  induction n with
  | zero => simp [loopStores]
  | succ n ih => rw [loopStores, List.count_append, ih, count_bodyStores_t]

theorem acceleration_reflect (sqrt : K → K) (mu x y : K) :
    acceleration sqrt mu x (-y)
      = ((acceleration sqrt mu x y).1, -(acceleration sqrt mu x y).2) := by
  simp only [acceleration, neg_sq, Prod.mk.injEq, true_and]
  ring

theorem deriv_reflect (sqrt : K → K) (mu : K) (s : State K) :
    deriv sqrt mu s.reflect = (deriv sqrt mu s).reflect := by
  simp only [deriv, State.reflect, acceleration_reflect]

theorem add_reflect (a b : State K) : a.reflect.add b.reflect = (a.add b).reflect := by
  simp only [State.add, State.reflect, State.mk.injEq, true_and]
  constructor <;> ring

theorem smul_reflect (k : K) (a : State K) :
    State.smul k a.reflect = (State.smul k a).reflect := by
  simp only [State.smul, State.reflect, State.mk.injEq, true_and]
  constructor <;> ring

theorem rk4Step_reflect (f : State K → State K) (hf : ∀ s, f s.reflect = (f s).reflect)
    (dt : K) (s : State K) : rk4Step f dt s.reflect = (rk4Step f dt s).reflect := by
  simp only [rk4Step, hf, smul_reflect, add_reflect]

theorem step_reflect (c : Config K) (sqrt : K → K) (s : State K) :
    step c sqrt s.reflect = (step c sqrt s).reflect := by
  rw [step_eq_rk4Step, step_eq_rk4Step]
  exact rk4Step_reflect _ (deriv_reflect sqrt c.GM) c.dt s

theorem iter_step_reflect (c : Config K) (sqrt : K → K) (s : State K) (n : Nat) :
    iter (step c sqrt) n s.reflect = (iter (step c sqrt) n s).reflect := by
  induction n with
  | zero => rfl
  | succ n ih => rw [iter, ih, step_reflect]; rfl

theorem reflect_fixed (s : State K) (h : s.reflect = s) : s.y = 0 ∧ s.vy = 0 := by
  simp only [State.reflect] at h
  have hy : -s.y = s.y := congrArg State.y h
  have hv : -s.vy = s.vy := congrArg State.vy h
  constructor <;> linarith

theorem rkBody_cell_k1 (c : Config K) (sqrt : K → K) (i : Nat) (m : Mem K) :
    (rkBody c sqrt i m).cell .k1_vx i
      = -c.GM * m.cell .x i / sqrt (m.cell .x i * m.cell .x i + m.cell .y i * m.cell .y i) ^ 3 ∧
    (rkBody c sqrt i m).cell .k1_vy i
      = -c.GM * m.cell .y i / sqrt (m.cell .x i * m.cell .x i + m.cell .y i * m.cell .y i) ^ 3
    := by
  simp [rkBody]

/-! ## The part of the loop that stays inside the arrays -/

theorem forthOrderRungeKutta_last (c : Config K) (sqrt : K → K) (m : Mem K) (n : Nat)
    (h : c.tmax = n + 1) :
    forthOrderRungeKutta c sqrt m = rkBody c sqrt n (inBoundsRun c sqrt m) := by
  unfold forthOrderRungeKutta inBoundsRun
  rw [h, forLoop_succ]
  rfl

theorem inBoundsRun_stateAt (c : Config K) (sqrt : K → K) (m : Mem K) (k : Nat)
    (h : k ≤ c.tmax - 1) :
    stateAt (inBoundsRun c sqrt m) k = iter (step c sqrt) k (stateAt m 0) :=
  loop_stateAt c sqrt m (c.tmax - 1) k h

theorem inBoundsRun_log (c : Config K) (sqrt : K → K) (m : Mem K) :
    (inBoundsRun c sqrt m).log = m.log ++ loopStores (c.tmax - 1) :=
  loop_log c sqrt m (c.tmax - 1)

theorem bodyStores_index_le (i : Nat) (e : Arr × Nat) (he : e ∈ bodyStores i) :
    e.2 ≤ i + 1 := by
  simp only [bodyStores, List.mem_cons, List.mem_singleton, List.not_mem_nil, or_false] at he
  rcases he with h | h | h | h | h | h | h | h | h | h | h | h | h | h | h | h | h | h | h
    | h | h | h | h | h | h | h | h | h | h | h | h | h | h | h | h | h <;>
    subst h <;> simp

theorem loopStores_index_le (n : Nat) (e : Arr × Nat) (he : e ∈ loopStores n) : e.2 ≤ n := by
  induction n with
  | zero => simp [loopStores] at he
  | succ n ih =>
    rw [loopStores, List.mem_append] at he
    rcases he with h | h
    · exact Nat.le_succ_of_le (ih h)
    · exact bodyStores_index_le n e h

/-- Every store of the iterations before the last one is within the arrays. -/
theorem loopStores_index_lt (n : Nat) (h : 0 < n) (e : Arr × Nat)
    (he : e ∈ loopStores (n - 1)) : e.2 < n := by
  have hle := loopStores_index_le (n - 1) e he
  omega

/-- C1: one iteration of the loop body of `forthOrderRungeKutta` is the classical
four-stage Runge-Kutta step for `f(x,y,vx,vy) = (vx, vy, ax(x,y), ay(x,y))`: for every
configuration (step size `dt`, `mu = G*M`), loop index `i` and memory (state `s` at
index `i`), the sample stored at index `i+1` is `s + (dt/6)*(k1 + 2*k2 + 2*k3 + k4)` with
`k1 = f(s)`, `k2 = f(s + 0.5*dt*k1)`, `k3 = f(s + 0.5*dt*k2)`, `k4 = f(s + dt*k3)`,
component by component; the same holds for the single-step function `step`. -/
theorem C1_loop_body_is_classical_rk4 (c : Config K) (sqrt : K → K) (i : Nat) (m : Mem K) :
    stateAt (rkBody c sqrt i m) (i + 1) = rk4Step (deriv sqrt c.GM) c.dt (stateAt m i) ∧
    ∀ s : State K, step c sqrt s = rk4Step (deriv sqrt c.GM) c.dt s :=
  ⟨rkBody_stateAt_succ c sqrt i m, step_eq_rk4Step c sqrt⟩

/-- C2 (code at the failing input): configuration `coast` (`tmax = 2`, `N = 1`). The
iteration that stores inside the arrays leaves sample 0 equal to the initial condition
and makes sample 1 the step of sample 0; then the loop runs its last iteration `i = N = 1`,
which stores the sample `(5, 4, 1, 0)` at index `2 = tmax`, past the end of the
two-element arrays `x`, `y`, `v_x`, `v_y`. -/
theorem C2_overrun_after_recurrence :
    stateAt (inBoundsRun (coast ℝ) Real.sqrt (initialCondition (coast ℝ) (Mem.zero ℝ))) 0
      = (coast ℝ).init ∧
    stateAt (inBoundsRun (coast ℝ) Real.sqrt (initialCondition (coast ℝ) (Mem.zero ℝ))) 1
      = step (coast ℝ) Real.sqrt
          (stateAt (inBoundsRun (coast ℝ) Real.sqrt (initialCondition (coast ℝ) (Mem.zero ℝ))) 0) ∧
    (∀ e ∈ loopStores ((coast ℝ).tmax - 1), inBounds (coast ℝ) e) ∧
    trajectory (coast ℝ) Real.sqrt (Mem.zero ℝ)
      = rkBody (coast ℝ) Real.sqrt 1
          (inBoundsRun (coast ℝ) Real.sqrt (initialCondition (coast ℝ) (Mem.zero ℝ))) ∧
    (Arr.x, 2) ∈ bodyStores 1 ∧ (Arr.y, 2) ∈ bodyStores 1 ∧
    (Arr.v_x, 2) ∈ bodyStores 1 ∧ (Arr.v_y, 2) ∈ bodyStores 1 ∧
    ¬ inBounds (coast ℝ) (Arr.x, 2) ∧
    stateAt (trajectory (coast ℝ) Real.sqrt (Mem.zero ℝ)) 2 = ⟨5, 4, 1, 0⟩ := by
  have h0 := inBoundsRun_stateAt (coast ℝ) Real.sqrt (initialCondition (coast ℝ) (Mem.zero ℝ)) 0
    (Nat.zero_le _)
  have h1 := inBoundsRun_stateAt (coast ℝ) Real.sqrt (initialCondition (coast ℝ) (Mem.zero ℝ)) 1
    (by simp [coast])
  have hmu : (coast ℝ).GM = 0 := by simp [coast, Config.GM]
  refine ⟨?_, ?_, fun e he => loopStores_index_lt (coast ℝ).tmax (by simp [coast]) e he,
    forthOrderRungeKutta_last (coast ℝ) Real.sqrt _ 1 rfl, by simp [bodyStores],
    by simp [bodyStores], by simp [bodyStores], by simp [bodyStores],
    by simp [inBounds, coast], ?_⟩
  · rw [h0, initialCondition_stateAt]
    rfl
  · rw [h1, h0]
    rfl
  · rw [trajectory_stateAt (coast ℝ) Real.sqrt (Mem.zero ℝ) 2 (by simp [coast]),
      iter_zero_force (coast ℝ) Real.sqrt hmu 2]
    simp only [coast, State.mk.injEq]
    norm_num

/-- C3 (code at the failing input): with the constants of `src.c` the loop runs its
iteration `i = tmax - 1 = 200000` (it stores `r[200000]`), and that iteration stores
`v_x`, `v_y`, `x` and `y` at index `200001 = tmax`, past the end of the `tmax`-element
arrays: the loop body runs `tmax = N + 1` times, not `N` times. -/
theorem C3_store_past_end :
    (Arr.r, 200000) ∈ (trajectory (swingby ℝ) Real.sqrt (Mem.zero ℝ)).log ∧
    (Arr.v_x, 200001) ∈ (trajectory (swingby ℝ) Real.sqrt (Mem.zero ℝ)).log ∧
    (Arr.v_y, 200001) ∈ (trajectory (swingby ℝ) Real.sqrt (Mem.zero ℝ)).log ∧
    (Arr.x, 200001) ∈ (trajectory (swingby ℝ) Real.sqrt (Mem.zero ℝ)).log ∧
    (Arr.y, 200001) ∈ (trajectory (swingby ℝ) Real.sqrt (Mem.zero ℝ)).log ∧
    ¬ inBounds (swingby ℝ) (Arr.x, 200001) ∧
    ¬ ∀ e ∈ (forthOrderRungeKutta (swingby ℝ) Real.sqrt
        (initialCondition (swingby ℝ) (Mem.zero ℝ))).log, inBounds (swingby ℝ) e := by
  have hk : (200000 : Nat) < (swingby ℝ).tmax := by simp [swingby]
  have hmem : ∀ e, e ∈ bodyStores 200000 →
      e ∈ (trajectory (swingby ℝ) Real.sqrt (Mem.zero ℝ)).log := by
    intro e he
    rw [trajectory_log, List.mem_append]
    exact Or.inr (mem_loopStores _ 200000 e hk he)
  have hnb : ¬ inBounds (swingby ℝ) (Arr.x, 200001) := by simp [inBounds, swingby]
  refine ⟨hmem _ (by simp [bodyStores]), hmem _ (by simp [bodyStores]),
    hmem _ (by simp [bodyStores]), hmem _ (by simp [bodyStores]),
    hmem _ (by simp [bodyStores]), hnb, ?_⟩
  intro hall
  exact hnb (hall _ (hmem _ (by simp [bodyStores])))

/-- C4: for every position with `r = sqrt(x^2 + y^2) > 0` and every `mu = G*M`, the
acceleration the loop body stores at each stage, `(k1_vx, k1_vy)` at `(x[i], y[i])` and
`(k2_vx, k2_vy)`, `(k3_vx, k3_vy)`, `(k4_vx, k4_vy)` at the stage positions
`(x_2[i], y_2[i])`, `(x_3[i], y_3[i])`, `(x_4[i], y_4[i])`, is the point-mass law
`(-mu*x/r^3, -mu*y/r^3)`. -/
theorem C4_stage_acceleration (c : Config K) (sqrt : K → K) (i : Nat) (m : Mem K)
    (_h1 : 0 < sqrt ((m.cell .x i) ^ 2 + (m.cell .y i) ^ 2))
    (_h2 : 0 < sqrt (((rkBody c sqrt i m).cell .x_2 i) ^ 2
      + ((rkBody c sqrt i m).cell .y_2 i) ^ 2))
    (_h3 : 0 < sqrt (((rkBody c sqrt i m).cell .x_3 i) ^ 2
      + ((rkBody c sqrt i m).cell .y_3 i) ^ 2))
    (_h4 : 0 < sqrt (((rkBody c sqrt i m).cell .x_4 i) ^ 2
      + ((rkBody c sqrt i m).cell .y_4 i) ^ 2)) :
    ((rkBody c sqrt i m).cell .k1_vx i, (rkBody c sqrt i m).cell .k1_vy i)
      = (-(c.G * c.M) * m.cell .x i / sqrt ((m.cell .x i) ^ 2 + (m.cell .y i) ^ 2) ^ 3,
         -(c.G * c.M) * m.cell .y i / sqrt ((m.cell .x i) ^ 2 + (m.cell .y i) ^ 2) ^ 3) ∧
    ((rkBody c sqrt i m).cell .k1_vx i, (rkBody c sqrt i m).cell .k1_vy i)
      = acceleration sqrt c.GM (m.cell .x i) (m.cell .y i) ∧
    ((rkBody c sqrt i m).cell .k2_vx i, (rkBody c sqrt i m).cell .k2_vy i)
      = acceleration sqrt c.GM ((rkBody c sqrt i m).cell .x_2 i)
          ((rkBody c sqrt i m).cell .y_2 i) ∧
    ((rkBody c sqrt i m).cell .k3_vx i, (rkBody c sqrt i m).cell .k3_vy i)
      = acceleration sqrt c.GM ((rkBody c sqrt i m).cell .x_3 i)
          ((rkBody c sqrt i m).cell .y_3 i) ∧
    ((rkBody c sqrt i m).cell .k4_vx i, (rkBody c sqrt i m).cell .k4_vy i)
      = acceleration sqrt c.GM ((rkBody c sqrt i m).cell .x_4 i)
          ((rkBody c sqrt i m).cell .y_4 i) := by
  simp [rkBody, acceleration, Config.GM, sq]

/-- Instance of C4: `GM = 125`, body at rest at `(3, 4)`, unit step, loop index 0. -/
theorem C4_stage_acceleration_witness :
    0 < Real.sqrt (((initialCondition (demo ℝ) (Mem.zero ℝ)).cell .x 0) ^ 2
      + ((initialCondition (demo ℝ) (Mem.zero ℝ)).cell .y 0) ^ 2) ∧
    ((rkBody (demo ℝ) Real.sqrt 0 (initialCondition (demo ℝ) (Mem.zero ℝ))).cell .k1_vx 0,
      (rkBody (demo ℝ) Real.sqrt 0 (initialCondition (demo ℝ) (Mem.zero ℝ))).cell .k1_vy 0)
      = acceleration Real.sqrt (demo ℝ).GM
          ((initialCondition (demo ℝ) (Mem.zero ℝ)).cell .x 0)
          ((initialCondition (demo ℝ) (Mem.zero ℝ)).cell .y 0) := by
  have h1 : 0 < Real.sqrt (((initialCondition (demo ℝ) (Mem.zero ℝ)).cell .x 0) ^ 2
      + ((initialCondition (demo ℝ) (Mem.zero ℝ)).cell .y 0) ^ 2) := by
    simp [initialCondition, demo]
    norm_num
  have h2 : 0 < Real.sqrt
      (((rkBody (demo ℝ) Real.sqrt 0 (initialCondition (demo ℝ) (Mem.zero ℝ))).cell .x_2 0) ^ 2
      + ((rkBody (demo ℝ) Real.sqrt 0 (initialCondition (demo ℝ) (Mem.zero ℝ))).cell .y_2 0) ^ 2)
      := by
    simp [rkBody, initialCondition, demo, Config.GM]
    norm_num
  have h3 : 0 < Real.sqrt
      (((rkBody (demo ℝ) Real.sqrt 0 (initialCondition (demo ℝ) (Mem.zero ℝ))).cell .x_3 0) ^ 2
      + ((rkBody (demo ℝ) Real.sqrt 0 (initialCondition (demo ℝ) (Mem.zero ℝ))).cell .y_3 0) ^ 2)
      := by
    simp [rkBody, initialCondition, demo, Config.GM]
    norm_num [sqrt_25]
  have h4 : 0 < Real.sqrt
      (((rkBody (demo ℝ) Real.sqrt 0 (initialCondition (demo ℝ) (Mem.zero ℝ))).cell .x_4 0) ^ 2
      + ((rkBody (demo ℝ) Real.sqrt 0 (initialCondition (demo ℝ) (Mem.zero ℝ))).cell .y_4 0) ^ 2)
      := by
    simp [rkBody, initialCondition, demo, Config.GM]
    norm_num [sqrt_25]
  exact ⟨h1, (C4_stage_acceleration (demo ℝ) Real.sqrt 0 (initialCondition (demo ℝ) (Mem.zero ℝ))
    h1 h2 h3 h4).2.1⟩

/-- C5 (code at the failing input): force-free configuration `coast` (`GM = 0`, start
`(3, 4)`, velocity `(1, 0)`, `dt = 1`, `tmax = 2`). The iteration that stores inside the
arrays puts samples 0 and 1 on the straight line `p0 + i*dt*v0` with velocity `v0`; the
last iteration `i = 1` then stores the next point of the line, `(5, 4)` with velocity
`(1, 0)`, at index `2 = tmax`, past the end of the two-element arrays. -/
theorem C5_straight_line_then_overrun :
    (coast ℝ).GM = 0 ∧
    (∀ i, i < (coast ℝ).tmax →
      stateAt (inBoundsRun (coast ℝ) Real.sqrt (initialCondition (coast ℝ) (Mem.zero ℝ))) i
        = ⟨(coast ℝ).x0 + (i : ℝ) * (coast ℝ).dt * (coast ℝ).vx0,
           (coast ℝ).y0 + (i : ℝ) * (coast ℝ).dt * (coast ℝ).vy0,
           (coast ℝ).vx0, (coast ℝ).vy0⟩) ∧
    (forthOrderRungeKutta (coast ℝ) Real.sqrt (initialCondition (coast ℝ) (Mem.zero ℝ))).log
      = (initialCondition (coast ℝ) (Mem.zero ℝ)).log ++ (bodyStores 0 ++ bodyStores 1) ∧
    (bodyStores 1).count (Arr.x, (coast ℝ).tmax) = 1 ∧
    (bodyStores 1).count (Arr.y, (coast ℝ).tmax) = 1 ∧
    (bodyStores 1).count (Arr.v_x, (coast ℝ).tmax) = 1 ∧
    (bodyStores 1).count (Arr.v_y, (coast ℝ).tmax) = 1 ∧
    ¬ inBounds (coast ℝ) (Arr.y, (coast ℝ).tmax) ∧
    (trajectory (coast ℝ) Real.sqrt (Mem.zero ℝ)).cell .x (coast ℝ).tmax = 5 ∧
    (trajectory (coast ℝ) Real.sqrt (Mem.zero ℝ)).cell .y (coast ℝ).tmax = 4 ∧
    (trajectory (coast ℝ) Real.sqrt (Mem.zero ℝ)).cell .v_x (coast ℝ).tmax = 1 ∧
    (trajectory (coast ℝ) Real.sqrt (Mem.zero ℝ)).cell .v_y (coast ℝ).tmax = 0 := by
  have hmu : (coast ℝ).GM = 0 := by simp [coast, Config.GM]
  have ht : (coast ℝ).tmax = 2 := rfl
  have hend := trajectory_stateAt (coast ℝ) Real.sqrt (Mem.zero ℝ) 2 (by simp [coast])
  rw [iter_zero_force (coast ℝ) Real.sqrt hmu 2] at hend
  simp only [stateAt, State.mk.injEq] at hend
  refine ⟨hmu, ?_, ?_, ?_, ?_, ?_, ?_, by simp [inBounds], ?_, ?_, ?_, ?_⟩
  · intro i hi
    rw [inBoundsRun_stateAt (coast ℝ) Real.sqrt _ i (by omega), initialCondition_stateAt,
      iter_zero_force (coast ℝ) Real.sqrt hmu i]
  · unfold forthOrderRungeKutta
    rw [loop_log, ht]
    simp [loopStores]
  · rw [ht, count_bodyStores_trajectory _ (Or.inl rfl)]
    rfl
  · rw [ht, count_bodyStores_trajectory _ (Or.inr (Or.inl rfl))]
    rfl
  · rw [ht, count_bodyStores_trajectory _ (Or.inr (Or.inr (Or.inl rfl)))]
    rfl
  · rw [ht, count_bodyStores_trajectory _ (Or.inr (Or.inr (Or.inr rfl)))]
    rfl
  · rw [ht, hend.1]
    norm_num [coast]
  · rw [ht, hend.2.1]
    norm_num [coast]
  · rw [ht, hend.2.2.1]
    rfl
  · rw [ht, hend.2.2.2]
    rfl

/-- C8: determinism. For any two prior contents `m1`, `m2` of the global arrays, the
values `t[i], x[i], y[i], v_x[i], v_y[i]` after `initialCondition; forthOrderRungeKutta`
are the same for every `0 <= i <= N`: they depend on the configuration only. -/
theorem C8_deterministic (c : Config K) (sqrt : K → K) (m1 m2 : Mem K) (i : Nat)
    (hi : i < c.tmax) :
    (trajectory c sqrt m1).cell .t i = (trajectory c sqrt m2).cell .t i ∧
    (trajectory c sqrt m1).cell .x i = (trajectory c sqrt m2).cell .x i ∧
    (trajectory c sqrt m1).cell .y i = (trajectory c sqrt m2).cell .y i ∧
    (trajectory c sqrt m1).cell .v_x i = (trajectory c sqrt m2).cell .v_x i ∧
    (trajectory c sqrt m1).cell .v_y i = (trajectory c sqrt m2).cell .v_y i := by
  have ht : (trajectory c sqrt m1).cell .t i = (trajectory c sqrt m2).cell .t i := by
    rw [trajectory_cell_t c sqrt m1 i hi, trajectory_cell_t c sqrt m2 i hi]
  have hs : stateAt (trajectory c sqrt m1) i = stateAt (trajectory c sqrt m2) i := by
    rw [trajectory_stateAt c sqrt m1 i (Nat.le_of_lt hi),
      trajectory_stateAt c sqrt m2 i (Nat.le_of_lt hi)]
  simp only [stateAt, State.mk.injEq] at hs
  exact ⟨ht, hs⟩

/-- Instance of C8 at the constants of `src.c`: zeroed memory against a memory that already
holds other values in `x[7]` and `v_y[7]`, compared at index 7. -/
theorem C8_deterministic_witness :
    7 < (swingby ℝ).tmax ∧
    (trajectory (swingby ℝ) Real.sqrt (Mem.zero ℝ)).cell .x 7
      = (trajectory (swingby ℝ) Real.sqrt
          (((Mem.zero ℝ).store .x 7 1).store .v_y 7 2)).cell .x 7 :=
  ⟨by simp [swingby],
   (C8_deterministic (swingby ℝ) Real.sqrt (Mem.zero ℝ)
      (((Mem.zero ℝ).store .x 7 1).store .v_y 7 2) 7 (by simp [swingby])).2.1⟩

/-- C9: output shape. When the file opens, `output_csv` writes the header line `i,t,x,v`
followed by exactly `tmax = N+1` sample lines, the `k`-th (`k = 0..N`, in increasing order)
carrying the six fields `k, t[k], x[k], y[k], v_x[k], v_y[k]`. -/
theorem C9_output_shape (c : Config K) (m : Mem K) :
    ∃ ls : List (CsvLine K),
      output_csv c true m = Except.ok (CsvLine.header "i,t,x,v" :: ls) ∧
      ls.length = c.tmax ∧
      ∀ k, k < c.tmax →
        ls.get? k = some (CsvLine.sample k (m.cell .t k) (m.cell .x k) (m.cell .y k)
          (m.cell .v_x k) (m.cell .v_y k)) := by
  refine ⟨(List.range c.tmax).map (sampleLine m), output_csv_ok c m, by simp, ?_⟩
  intro k hk
  simp [List.get?_eq_getElem?, hk, sampleLine]

/-- Instance of C9 at the constants of `src.c`, on the memory `main` hands to
`output_csv`: the last sample line is line `N = 200000`. -/
theorem C9_output_shape_witness :
    ∃ ls : List (CsvLine ℝ),
      output_csv (swingby ℝ) true (trajectory (swingby ℝ) Real.sqrt (Mem.zero ℝ))
        = Except.ok (CsvLine.header "i,t,x,v" :: ls) ∧
      ls.length = (swingby ℝ).tmax ∧
      ls.get? 200000 = some (CsvLine.sample 200000
        ((trajectory (swingby ℝ) Real.sqrt (Mem.zero ℝ)).cell .t 200000)
        ((trajectory (swingby ℝ) Real.sqrt (Mem.zero ℝ)).cell .x 200000)
        ((trajectory (swingby ℝ) Real.sqrt (Mem.zero ℝ)).cell .y 200000)
        ((trajectory (swingby ℝ) Real.sqrt (Mem.zero ℝ)).cell .v_x 200000)
        ((trajectory (swingby ℝ) Real.sqrt (Mem.zero ℝ)).cell .v_y 200000)) := by
  obtain ⟨ls, h1, h2, h3⟩ :=
    C9_output_shape (swingby ℝ) (trajectory (swingby ℝ) Real.sqrt (Mem.zero ℝ))
  exact ⟨ls, h1, h2, h3 200000 (by simp [swingby])⟩

/-- C10 (counterexample): with the constants of `src.c` and the body started at the
centre (`x0 = 0`, `y0 = 0`), the first radius evaluated is `r[0] = 0`, yet nothing is
aborted: the loop still stores sample 1 and every later sample up to its last iteration,
and `main` exits with status 0 after writing the header and all `tmax` sample lines. -/
theorem C10_no_abort_at_singularity :
    (trajectory (origin ℝ) Real.sqrt (Mem.zero ℝ)).cell .r 0 = 0 ∧
    (Arr.x, 1) ∈ (trajectory (origin ℝ) Real.sqrt (Mem.zero ℝ)).log ∧
    (Arr.r, 200000) ∈ (trajectory (origin ℝ) Real.sqrt (Mem.zero ℝ)).log ∧
    (main (origin ℝ) Real.sqrt true (Mem.zero ℝ)).status = 0 ∧
    (main (origin ℝ) Real.sqrt true (Mem.zero ℝ)).file.length = 200001 + 1 := by
  have hmem : ∀ k e, k < (origin ℝ).tmax → e ∈ bodyStores k →
      e ∈ (trajectory (origin ℝ) Real.sqrt (Mem.zero ℝ)).log := by
    intro k e hk he
    rw [trajectory_log, List.mem_append]
    exact Or.inr (mem_loopStores _ k e hk he)
  refine ⟨?_, hmem 0 _ (by simp [origin, swingby]) (by simp [bodyStores]),
    hmem 200000 _ (by simp [origin, swingby]) (by simp [bodyStores]),
    main_ok_status _ _ _, main_ok_length _ _ _⟩
  rw [trajectory_cell_r_zero (origin ℝ) Real.sqrt (Mem.zero ℝ) 200000 rfl]
  norm_num [origin, swingby]

/-- C10 (amended): a zero radius does not abort the run. Whatever the radii evaluated
are, `forthOrderRungeKutta` runs all `tmax` iterations of its loop, and `main`, when the
file opens, exits with status 0 after writing the header and `tmax` sample lines. -/
theorem C10_run_always_completes (c : Config K) (sqrt : K → K) (m : Mem K) :
    (forthOrderRungeKutta c sqrt (initialCondition c m)).log
      = (initialCondition c m).log ++ loopStores c.tmax ∧
    (main c sqrt true m).status = 0 ∧
    (main c sqrt true m).file.length = c.tmax + 1 := by
  exact ⟨loop_log c sqrt _ c.tmax, main_ok_status c sqrt m, main_ok_length c sqrt m⟩

/-- C11: exit behaviour. `output_csv` ends the process with `exit(1)` if and only if
opening the output file fails, no other exit status occurs, and in that case no header
and no sample line is written; when the open succeeds the program finishes with
status 0. -/
theorem C11_exit_behaviour (c : Config K) (sqrt : K → K) (fopenOk : Bool) (m : Mem K) :
    (output_csv c fopenOk m = Except.error 1 ↔ fopenOk = false) ∧
    (∀ n, output_csv c fopenOk m = Except.error n → n = 1) ∧
    ((main c sqrt fopenOk m).status ≠ 0 ↔ fopenOk = false) ∧
    (fopenOk = false →
      (main c sqrt fopenOk m).status = 1 ∧ (main c sqrt fopenOk m).file = []) ∧
    (fopenOk = true → (main c sqrt fopenOk m).status = 0) := by
  cases fopenOk
  · rw [main_fail, output_csv_fail]
    simp
  · rw [main_ok, output_csv_ok]
    simp

/-- Instance of C11 at the constants of `src.c` when `fopen` fails. -/
theorem C11_exit_behaviour_witness :
    false = false ∧
    (main (swingby ℝ) Real.sqrt false (Mem.zero ℝ)).status = 1 ∧
    (main (swingby ℝ) Real.sqrt false (Mem.zero ℝ)).file = [] :=
  ⟨rfl, (C11_exit_behaviour (swingby ℝ) Real.sqrt false (Mem.zero ℝ)).2.2.2.1 rfl⟩

/-- C13: the stage velocity derivatives are `k1_x = v`, `k2_x = v + 0.5*dt*a1`,
`k3_x = v + 0.5*dt*a2`, `k4_x = v + dt*a3` (`a1, a2, a3` the stored stage accelerations
`k1_vx[i], k2_vx[i], k3_vx[i]`), so the position update of one step is
`x[i+1] = x[i] + dt*v_x[i] + (dt^2/6)*(k1_vx[i] + k2_vx[i] + k3_vx[i])`, and the same for
`y`: the stage-4 acceleration does not enter the new position. -/
theorem C13_position_closed_form (c : Config K) (sqrt : K → K) (i : Nat) (m : Mem K) :
    (rkBody c sqrt i m).cell .k1_x i = m.cell .v_x i ∧
    (rkBody c sqrt i m).cell .k2_x i
      = m.cell .v_x i + 0.5 * c.dt * (rkBody c sqrt i m).cell .k1_vx i ∧
    (rkBody c sqrt i m).cell .k3_x i
      = m.cell .v_x i + 0.5 * c.dt * (rkBody c sqrt i m).cell .k2_vx i ∧
    (rkBody c sqrt i m).cell .k4_x i
      = m.cell .v_x i + c.dt * (rkBody c sqrt i m).cell .k3_vx i ∧
    (rkBody c sqrt i m).cell .x (i + 1)
      = m.cell .x i + c.dt * m.cell .v_x i + (c.dt ^ 2 / 6) *
          ((rkBody c sqrt i m).cell .k1_vx i + (rkBody c sqrt i m).cell .k2_vx i
            + (rkBody c sqrt i m).cell .k3_vx i) ∧
    (rkBody c sqrt i m).cell .y (i + 1)
      = m.cell .y i + c.dt * m.cell .v_y i + (c.dt ^ 2 / 6) *
          ((rkBody c sqrt i m).cell .k1_vy i + (rkBody c sqrt i m).cell .k2_vy i
            + (rkBody c sqrt i m).cell .k3_vy i) := by
  simp only [rkBody, cell_store]
  simp
  refine ⟨?_, ?_, ?_, ?_, ?_⟩ <;> ring

/-- C14 (counterexample): configuration `axial` (`GM = 1`, `dt = 1`), body on the x-axis
at `(1, 0)` moving along it with velocity `(-2, 0)`, so `y[0] = 0` and `v_y[0] = 0`. The
stage-2 position of the first step is the centre `(0, 0)`: the radius `r_2[0]` is 0, and
both quotients `k2_vx[0]`, `k2_vy[0]` have numerator 0 and divisor 0. The step does not
produce the numbers the claim asserts. -/
theorem C14_zero_divisor_on_axis :
    (initialCondition (axial ℝ) (Mem.zero ℝ)).cell .y 0 = 0 ∧
    (initialCondition (axial ℝ) (Mem.zero ℝ)).cell .v_y 0 = 0 ∧
    (rkBody (axial ℝ) Real.sqrt 0 (initialCondition (axial ℝ) (Mem.zero ℝ))).cell .x_2 0 = 0 ∧
    (rkBody (axial ℝ) Real.sqrt 0 (initialCondition (axial ℝ) (Mem.zero ℝ))).cell .y_2 0 = 0 ∧
    (rkBody (axial ℝ) Real.sqrt 0 (initialCondition (axial ℝ) (Mem.zero ℝ))).cell .r_2 0 = 0 ∧
    -(axial ℝ).GM
      * (rkBody (axial ℝ) Real.sqrt 0 (initialCondition (axial ℝ) (Mem.zero ℝ))).cell .y_2 0
      = 0 ∧
    ((rkBody (axial ℝ) Real.sqrt 0 (initialCondition (axial ℝ) (Mem.zero ℝ))).cell .r_2 0) ^ 3
      = 0 ∧
    ¬ radiiPositive (axial ℝ) Real.sqrt 0 (initialCondition (axial ℝ) (Mem.zero ℝ)) := by
  have hx2 : (rkBody (axial ℝ) Real.sqrt 0
      (initialCondition (axial ℝ) (Mem.zero ℝ))).cell .x_2 0 = 0 := by
    simp [rkBody, initialCondition, axial]
    norm_num
  have hy2 : (rkBody (axial ℝ) Real.sqrt 0
      (initialCondition (axial ℝ) (Mem.zero ℝ))).cell .y_2 0 = 0 := by
    simp [rkBody, initialCondition, axial]
  have hr2 : (rkBody (axial ℝ) Real.sqrt 0
      (initialCondition (axial ℝ) (Mem.zero ℝ))).cell .r_2 0 = 0 := by
    simp [rkBody, initialCondition, axial]
    norm_num
  refine ⟨by simp [initialCondition, axial], by simp [initialCondition, axial], hx2, hy2, hr2,
    ?_, ?_, ?_⟩
  · rw [hy2, mul_zero]
  · rw [hr2]
    norm_num
  · intro h
    have h2 := h.2.1
    rw [hr2] at h2
    exact lt_irrefl 0 h2

/-- C14 (amended): mirror symmetry where no radius vanishes. For every `dt`, `mu` and every
state whose four stage radii are positive, stepping the reflected state `(x, -y, vx, -vy)`
gives the reflection of the stepped state; and if `y[0] = 0` and `v_y[0] = 0` when the
loop starts and every radius evaluated by the iterations that store inside the arrays is
positive, then after those iterations `y[i] = 0` and `v_y[i] = 0` for every index
`i = 0..N` of the trajectory. -/
theorem C14_mirror_symmetry_regular (c : Config K) (sqrt : K → K) :
    (∀ s : State K, radiiPositive c sqrt 0 (Mem.ofState s) →
      step c sqrt s.reflect = (step c sqrt s).reflect) ∧
    (∀ m : Mem K, m.cell .y 0 = 0 → m.cell .v_y 0 = 0 →
      (∀ j, j + 1 < c.tmax → radiiPositive c sqrt j (forLoop j (rkBody c sqrt) m)) →
      ∀ i, i < c.tmax →
        (inBoundsRun c sqrt m).cell .y i = 0 ∧ (inBoundsRun c sqrt m).cell .v_y i = 0) := by
  refine ⟨fun s _ => step_reflect c sqrt s, ?_⟩
  intro m hy hv _ i hi
  have hfix : (stateAt m 0).reflect = stateAt m 0 := by
    simp [State.reflect, stateAt, hy, hv]
  have hs := inBoundsRun_stateAt c sqrt m i (by omega)
  have hit := iter_step_reflect c sqrt (stateAt m 0) i
  rw [hfix] at hit
  have h0 := reflect_fixed _ hit.symm
  rw [← hs] at h0
  exact h0

/-- Instance of C14 (amended): `GM = 125`, `dt = 1`, state `(3, 4, 0, 0)`, whose stage
radii are positive. -/
theorem C14_mirror_symmetry_regular_witness :
    radiiPositive (demo ℝ) Real.sqrt 0 (Mem.ofState ⟨3, 4, 0, 0⟩) ∧
    step (demo ℝ) Real.sqrt (State.reflect ⟨3, 4, 0, 0⟩)
      = (step (demo ℝ) Real.sqrt ⟨3, 4, 0, 0⟩).reflect := by
  have hr : radiiPositive (demo ℝ) Real.sqrt 0 (Mem.ofState ⟨3, 4, 0, 0⟩) := by
    unfold radiiPositive
    refine ⟨?_, ?_, ?_, ?_⟩
    · simp [rkBody, Mem.ofState, Mem.zero, demo, Config.GM]
      norm_num
    · simp [rkBody, Mem.ofState, Mem.zero, demo, Config.GM]
      norm_num
    · simp [rkBody, Mem.ofState, Mem.zero, demo, Config.GM]
      norm_num [sqrt_25]
    · simp [rkBody, Mem.ofState, Mem.zero, demo, Config.GM]
      norm_num [sqrt_25]
  exact ⟨hr, (C14_mirror_symmetry_regular (demo ℝ) Real.sqrt).1 ⟨3, 4, 0, 0⟩ hr⟩

/-- C15: the stage acceleration is a central inverse-square force. Over the reals, for
every position `(x, y) = (x[i], y[i])` with `r = sqrt(x^2 + y^2) > 0` and `mu = G*M >= 0`,
the stored acceleration `(ax, ay) = (k1_vx[i], k1_vy[i])` satisfies
`ax^2 + ay^2 = (mu / r^2)^2`, `x*ay - y*ax = 0` and `x*ax + y*ay <= 0`. -/
theorem C15_central_inverse_square (c : Config ℝ) (i : Nat) (m : Mem ℝ)
    (hr : 0 < Real.sqrt ((m.cell .x i) ^ 2 + (m.cell .y i) ^ 2)) (hmu : 0 ≤ c.GM) :
    ((rkBody c Real.sqrt i m).cell .k1_vx i) ^ 2 + ((rkBody c Real.sqrt i m).cell .k1_vy i) ^ 2
      = (c.GM / (Real.sqrt ((m.cell .x i) ^ 2 + (m.cell .y i) ^ 2)) ^ 2) ^ 2 ∧
    m.cell .x i * (rkBody c Real.sqrt i m).cell .k1_vy i
      - m.cell .y i * (rkBody c Real.sqrt i m).cell .k1_vx i = 0 ∧
    m.cell .x i * (rkBody c Real.sqrt i m).cell .k1_vx i
      + m.cell .y i * (rkBody c Real.sqrt i m).cell .k1_vy i ≤ 0 := by
  obtain ⟨hax, hay⟩ := rkBody_cell_k1 c Real.sqrt i m
  rw [hax, hay]
  have hxy : m.cell .x i * m.cell .x i + m.cell .y i * m.cell .y i
      = (m.cell .x i) ^ 2 + (m.cell .y i) ^ 2 := by ring
  rw [hxy]
  generalize hR : Real.sqrt ((m.cell .x i) ^ 2 + (m.cell .y i) ^ 2) = R at hr
  have hnn : 0 ≤ (m.cell .x i) ^ 2 + (m.cell .y i) ^ 2 := by positivity
  have hR2 : R ^ 2 = (m.cell .x i) ^ 2 + (m.cell .y i) ^ 2 := by
    rw [← hR]
    exact Real.sq_sqrt hnn
  have hRne : R ≠ 0 := ne_of_gt hr
  refine ⟨?_, by ring, ?_⟩
  · have e1 : (-c.GM * m.cell .x i / R ^ 3) ^ 2 + (-c.GM * m.cell .y i / R ^ 3) ^ 2
        = c.GM ^ 2 * ((m.cell .x i) ^ 2 + (m.cell .y i) ^ 2) / R ^ 6 := by ring
    rw [e1, ← hR2]
    field_simp
    ring
  · have e2 : m.cell .x i * (-c.GM * m.cell .x i / R ^ 3)
        + m.cell .y i * (-c.GM * m.cell .y i / R ^ 3)
        = -(c.GM * ((m.cell .x i) ^ 2 + (m.cell .y i) ^ 2) / R ^ 3) := by ring
    rw [e2, ← hR2]
    have hpos : 0 ≤ c.GM * R ^ 2 / R ^ 3 :=
      div_nonneg (mul_nonneg hmu (by positivity)) (by positivity)
    linarith

/-- Instance of C15: `GM = 125`, body at `(3, 4)` (so `r = 5`), loop index 0. -/
theorem C15_central_inverse_square_witness :
    0 < Real.sqrt (((initialCondition (demo ℝ) (Mem.zero ℝ)).cell .x 0) ^ 2
      + ((initialCondition (demo ℝ) (Mem.zero ℝ)).cell .y 0) ^ 2) ∧
    0 ≤ (demo ℝ).GM ∧
    (initialCondition (demo ℝ) (Mem.zero ℝ)).cell .x 0
        * (rkBody (demo ℝ) Real.sqrt 0 (initialCondition (demo ℝ) (Mem.zero ℝ))).cell .k1_vx 0
      + (initialCondition (demo ℝ) (Mem.zero ℝ)).cell .y 0
        * (rkBody (demo ℝ) Real.sqrt 0 (initialCondition (demo ℝ) (Mem.zero ℝ))).cell .k1_vy 0
      ≤ 0 := by
  have hr : 0 < Real.sqrt (((initialCondition (demo ℝ) (Mem.zero ℝ)).cell .x 0) ^ 2
      + ((initialCondition (demo ℝ) (Mem.zero ℝ)).cell .y 0) ^ 2) := by
    simp [initialCondition, demo]
    norm_num
  have hmu : 0 ≤ (demo ℝ).GM := by norm_num [demo, Config.GM]
  exact ⟨hr, hmu,
    (C15_central_inverse_square (demo ℝ) 0 (initialCondition (demo ℝ) (Mem.zero ℝ)) hr hmu).2.2⟩

end

end Swingby
